import Mathlib

set_option maxRecDepth 16000
set_option maxHeartbeats 1000000

/-!
Verification development for the `newline_iwb_converter` SVG pipeline
(`src/newline_iwb_converter/iwb2svg.py`).

The Python `xml.etree.ElementTree` trees are shallowly embedded as a
nested inductive `Element`; attribute dictionaries become ordered
association lists (Python dicts preserve insertion order, and `set`
overwrites a value in place).  Python floats are idealised as rationals
(`ℚ`); all numeric fixtures in the spec are small integers on which
float arithmetic is exact.  Functions that mutate trees in place are
embedded as pure tree transformers.
-/

namespace Iwb

/-- An XML element: tag (namespace-qualified, e.g. a string of the form
open-brace uri close-brace localName), ordered attribute list, optional
direct text, optional tail text, ordered children. -/
inductive Element where
  | mk : String → List (String × String) → Option String → Option String →
      List Element → Element

mutual

def Element.decEq : (a b : Element) → Decidable (a = b)
  | .mk t1 a1 x1 l1 c1, .mk t2 a2 x2 l2 c2 =>
    letI hc : Decidable (c1 = c2) := decEqElemList c1 c2
    decidable_of_iff (t1 = t2 ∧ a1 = a2 ∧ x1 = x2 ∧ l1 = l2 ∧ c1 = c2)
      (by rw [Element.mk.injEq])

def decEqElemList : (xs ys : List Element) → Decidable (xs = ys)
  | [], [] => isTrue rfl
  | [], _ :: _ => isFalse (by simp)
  | _ :: _, [] => isFalse (by simp)
  | x :: xs, y :: ys =>
    letI h1 : Decidable (x = y) := Element.decEq x y
    letI h2 : Decidable (xs = ys) := decEqElemList xs ys
    decidable_of_iff (x = y ∧ xs = ys) (by rw [List.cons.injEq])

end

instance : DecidableEq Element := Element.decEq

def Element.tag : Element → String
  | .mk t _ _ _ _ => t

def Element.attrib : Element → List (String × String)
  | .mk _ a _ _ _ => a

def Element.text : Element → Option String
  | .mk _ _ x _ _ => x

def Element.tail : Element → Option String
  | .mk _ _ _ l _ => l

def Element.children : Element → List Element
  | .mk _ _ _ _ cs => cs

/-- Lookup of an attribute value (Python `elem.get(key)` / dict lookup;
keys are unique in a Python dict, so the first match is the value). -/
def getA : List (String × String) → String → Option String
  | [], _ => none
  | (k', v') :: rest, k => if k' = k then some v' else getA rest k

/-- Python `elem.get(key, default)`. -/
def getAD (a : List (String × String)) (k d : String) : String :=
  (getA a k).getD d

/-- Python `key in elem.attrib`. -/
def hasA (a : List (String × String)) (k : String) : Bool :=
  (getA a k).isSome

/-- Python `elem.set(key, value)`: overwrite in place if the key exists
(keeping its position, as an insertion-ordered dict does), else append. -/
def setA : List (String × String) → String → String → List (String × String)
  | [], k, v => [(k, v)]
  | (k', v') :: rest, k, v =>
      if k' = k then (k, v) :: rest else (k', v') :: setA rest k v

def Element.getAttr (e : Element) (k : String) : Option String :=
  getA e.attrib k

def Element.getAttrD (e : Element) (k d : String) : String :=
  getAD e.attrib k d

def Element.setAttr : Element → String → String → Element
  | .mk t a x l cs, k, v => .mk t (setA a k v) x l cs

mutual

/-- The document-order (pre-order) list of elements visited by Python's
`elem.iter()`: the element itself, then each child's subtree. -/
def preorder : Element → List Element
  | .mk t a x l cs => .mk t a x l cs :: preorderList cs

def preorderList : List Element → List Element
  | [] => []
  | c :: cs => preorder c ++ preorderList cs

end

/-- The elements visited by a `.//`-style search: all proper descendants
of the root, in document order (the root itself is excluded). -/
def descendants (e : Element) : List Element :=
  preorderList e.children

/-- Strong induction over the nested `Element` tree. -/
theorem Element.strongInduction (P : Element → Prop)
    (h : ∀ t a x l cs, (∀ c ∈ cs, P c) → P (.mk t a x l cs)) :
    ∀ e, P e
  | .mk t a x l cs =>
      h t a x l cs (fun c hc =>
        have : sizeOf c < sizeOf (Element.mk t a x l cs) := by
          have hlt := List.sizeOf_lt_of_mem hc
          simp only [Element.mk.sizeOf_spec]
          omega
        Element.strongInduction P h c)
termination_by e => sizeOf e

/-! Numeric parsing and printing.

Python `float(s)` is modelled on its decimal fragment: optional
surrounding whitespace, an optional sign, an integer part and/or a
fractional part (at least one digit overall), and an optional decimal
exponent.  (`inf`, `nan` and digit-group underscores are not modelled;
no string in this repository's data path uses them.)  Values are exact
rationals rather than binary floats. -/

def digitsVal (ds : List Char) : Nat :=
  ds.foldl (fun a c => a * 10 + (c.toNat - '0'.toNat)) 0

/-- Parse an optional exponent suffix `e`/`E` sign digits (the whole
remaining input must be consumed). -/
def parseExpSuffix : List Char → Option (Int)
  | [] => some 0
  | c :: r =>
    if c = 'e' ∨ c = 'E' then
      let (sgn, r1) : Int × List Char :=
        match r with
        | '+' :: r' => (1, r')
        | '-' :: r' => (-1, r')
        | r' => (1, r')
      let (eds, r2) := r1.span Char.isDigit
      if eds.isEmpty ∨ ¬ r2.isEmpty then none
      else some (sgn * (digitsVal eds : Int))
    else none

/-- Model of Python `float(s)` (decimal fragment, exact value). -/
def parseFloat (s : String) : Option ℚ :=
  let cs := s.trim.toList
  let (sgn, cs1) : ℚ × List Char :=
    match cs with
    | '+' :: r => (1, r)
    | '-' :: r => (-1, r)
    | r => (1, r)
  let (ids, cs2) := cs1.span Char.isDigit
  let (fds, cs3) : List Char × List Char :=
    match cs2 with
    | '.' :: r => r.span Char.isDigit
    | r => ([], r)
  let hadDot : Bool := match cs2 with | '.' :: _ => true | _ => false
  if ids.isEmpty ∧ fds.isEmpty then none
  else
    let rest := if hadDot then cs3 else cs2
    match parseExpSuffix rest with
    | none => none
    | some ex =>
      let mag : ℚ := (digitsVal ids : ℚ) + (digitsVal fds : ℚ) / (10 : ℚ) ^ fds.length
      let v := sgn * mag
      some (if 0 ≤ ex then v * (10 : ℚ) ^ ex.toNat else v / (10 : ℚ) ^ (-ex).toNat)

/-- The guard on declared page dimensions,
`width_str and width_str.replace(".", "").isdigit()` (ASCII digits). -/
def sizeGuard (s : String) : Bool :=
  s ≠ "" && (let t := s.replace "." ""; t ≠ "" && t.toList.all Char.isDigit)

/-- Parse a declared canvas dimension: the digit guard followed by
`float(...)`.  A `none` models both the "percentage or invalid" early
return and the exception path (`float` of e.g. `"1.2.3"` is caught by
the blanket handler); either way the page is left untouched. -/
def parseSvgDim (s : String) : Option ℚ :=
  if sizeGuard s then parseFloat s else none

/-- Decimal digits of the fractional part `rem / den`, up to `fuel`
digits (terminates early when the remainder vanishes). -/
def fracDigits : Nat → Nat → Nat → String
  | 0, _, _ => ""
  | _ + 1, 0, _ => ""
  | fuel + 1, rem, den =>
      let r10 := rem * 10
      toString (r10 / den) ++ fracDigits fuel (r10 % den) den

/-- Model of Python `str(float)` for the values this pipeline produces:
integral values print as `"<n>.0"`, terminating decimals print their
digits.  (Python's shortest-roundtrip repr and scientific notation for
huge magnitudes are idealised away; every value reached in this
development is a small terminating decimal.) -/
def pyFloatStr (q : ℚ) : String :=
  let sgn := if q < 0 then "-" else ""
  let n := q.num.natAbs
  let d := q.den
  let frac := fracDigits 60 (n % d) d
  sgn ++ toString (n / d) ++ "." ++ (if frac = "" then "0" else frac)

/-! Transform parsing (`parse_transform_translate`, iwb2svg.py lines
155-170).  The regex
`translate\s*\(\s*([+-]?\d+\.?\d*)\s*[,\s]\s*([+-]?\d+\.?\d*)\s*\)`
is modelled by a deterministic matcher tried at every position left to
right, which coincides with `re.search` here: the number token is an
all-or-nothing greedy match (backtracking it can never help, as the
following separator can not match a digit), and the separator
`\s*[,\s]\s*` accepts exactly either a nonempty whitespace run or a
single comma surrounded by optional whitespace. -/

def skipWs (cs : List Char) : List Char :=
  cs.dropWhile (fun c => c.isWhitespace)

/-- Consume a literal character sequence, returning the remainder. -/
def dropLit : List Char → List Char → Option (List Char)
  | [], cs => some cs
  | l :: ls, c :: cs => if c = l then dropLit ls cs else none
  | _ :: _, [] => none

/-- Match the token `[+-]?\d+\.?\d*` at the head of the input. -/
def matchNumTok (cs : List Char) : Option (List Char × List Char) :=
  let (sgn, r0) : List Char × List Char :=
    match cs with
    | '+' :: r => (['+'], r)
    | '-' :: r => (['-'], r)
    | r => ([], r)
  let (ds, r1) := r0.span Char.isDigit
  if ds.isEmpty then none
  else
    match r1 with
    | '.' :: r2 =>
        let (fs, r3) := r2.span Char.isDigit
        some (sgn ++ ds ++ '.' :: fs, r3)
    | _ => some (sgn ++ ds, r1)

/-- Match the separator `\s*[,\s]\s*` at the head of the input. -/
def matchSep (cs : List Char) : Option (List Char) :=
  let ws := cs.takeWhile (fun c => c.isWhitespace)
  let r := cs.dropWhile (fun c => c.isWhitespace)
  match r with
  | ',' :: r2 => some (skipWs r2)
  | _ => if ws.isEmpty then none else some r

/-- Attempt the whole `translate(x, y)` pattern at this position. -/
def matchTranslateAt (cs : List Char) : Option (String × String) :=
  match dropLit "translate".toList cs with
  | none => none
  | some r0 =>
    match skipWs r0 with
    | '(' :: r2 =>
      match matchNumTok (skipWs r2) with
      | none => none
      | some (t1, r4) =>
        match matchSep r4 with
        | none => none
        | some r5 =>
          match matchNumTok r5 with
          | none => none
          | some (t2, r6) =>
            match skipWs r6 with
            | ')' :: _ => some (String.mk t1, String.mk t2)
            | _ => none
    | _ => none

/-- Model of `re.search`: try the pattern at each position, leftmost
match wins. -/
def searchTranslate : List Char → Option (String × String)
  | [] => none
  | c :: cs =>
    match matchTranslateAt (c :: cs) with
    | some r => some r
    | none => searchTranslate cs

/-- `parse_transform_translate` (iwb2svg.py lines 155-170): extract a
`translate(x, y)` offset; absent or unparsable transforms yield (0,0). -/
def parse_transform_translate (s : String) : ℚ × ℚ :=
  if s = "" then (0, 0)
  else
    match searchTranslate s.toList with
    | some (g1, g2) =>
      match parseFloat g1, parseFloat g2 with
      | some tx, some ty => (tx, ty)
      | _, _ => (0, 0)
    | none => (0, 0)

/-! Fill stripping (`remove_fills`, iwb2svg.py lines 23-77). -/

/-- Python `tag.split("}")[-1]`: the local tag name. -/
def localName (tag : String) : String :=
  (tag.splitOn "\x7d").getLastD tag

def shape_tags : List String :=
  ["path", "rect", "circle", "ellipse", "polygon", "polyline", "line", "text"]

/-- Python `p.split(":", 1)` after the `":" in p` membership test:
`none` when the declaration has no colon (the loop skips it). -/
def splitColon1 (p : String) : Option (String × String) :=
  let (k, rest) := p.toList.span (fun c => c ≠ ':')
  match rest with
  | ':' :: v => some (String.mk k, String.mk v)
  | _ => none

/-- The style-declaration loop of `remove_fills` (lines 58-68): rewrite
every `fill` declaration to `fill:none`, keep other declarations as
trimmed `key:value`, drop colon-less segments, and report whether a
`fill` declaration was seen. -/
def processStyleParts : List String → List String × Bool
  | [] => ([], false)
  | p :: rest =>
    match splitColon1 p with
    | none => processStyleParts rest
    | some (k, v) =>
      let k := k.trim
      let v := v.trim
      let (outRest, hf) := processStyleParts rest
      if k = "fill" then ("fill:none" :: outRest, true)
      else ((k ++ ":" ++ v) :: outRest, hf)

/-- Lines 49-50: overwrite an existing `fill` presentation attribute
with `none`. -/
def fillAttrStep (a : List (String × String)) : List (String × String) :=
  if hasA a "fill" then setA a "fill" "none" else a

/-- Lines 53-73: rewrite the `style` attribute if present and nonempty
(Python truthiness): rebuild the declaration list, appending `fill:none`
for shape tags without a fill declaration, and write it back unless the
rebuilt list is empty. -/
def styleStep (lname : String) (a1 : List (String × String)) :
    List (String × String) :=
  match getA a1 "style" with
  | some style =>
    if style ≠ "" then
      let parts := (style.splitOn ";").filter (fun p => p.trim ≠ "")
      let (outParts, hasFill) := processStyleParts parts
      let outParts :=
        if !hasFill && shape_tags.contains lname then
          outParts ++ ["fill:none"]
        else outParts
      if outParts ≠ [] then
        setA a1 "style" (String.intercalate ";" outParts)
      else a1
    else a1
  | none => a1

/-- Lines 75-77: a shape with neither a `fill` attribute nor a truthy
`style` gets a fresh `fill="none"`. -/
def finalFillStep (lname : String) (a2 : List (String × String)) :
    List (String × String) :=
  if !hasA a2 "fill" && getAD a2 "style" "" = "" && shape_tags.contains lname
  then setA a2 "fill" "none"
  else a2

/-- The per-element body of `remove_fills` (lines 38-77), acting on one
element's tag and attribute list: skip vendor-exempt ids, then apply
the three sequential rewrite statements of the source. -/
def stripFillsAttrs (tag : String) (a : List (String × String)) :
    List (String × String) :=
  let lname := localName tag
  let elemId := getAD a "id" ""
  if elemId.startsWith "Autoshape" || elemId.startsWith "Word" then a
  else finalFillStep lname (styleStep lname (fillAttrStep a))

mutual

/-- `remove_fills` (iwb2svg.py lines 23-77).  The source iterates the
tree with `svg_root.iter()` and mutates each element's attributes in
place; since the mutation of one element never inspects another, this
is the same as a structure-preserving tree map. -/
def remove_fills : Element → Element
  | .mk t a x l cs => .mk t (stripFillsAttrs t a) x l (removeFillsList cs)

def removeFillsList : List Element → List Element
  | [] => []
  | c :: cs => remove_fills c :: removeFillsList cs

end

/-! Namespace-qualified tags ("curly-brace uri curly-brace localname",
ElementTree's Clark notation). -/

def SVG_NS : String := "http://www.w3.org/2000/svg"

def XLINK_NS : String := "http://www.w3.org/1999/xlink"

def nsTag (uri lname : String) : String := "\x7b" ++ uri ++ "\x7d" ++ lname

def svgTag (lname : String) : String := nsTag SVG_NS lname

/-- The cross-namespace image reference attribute `xlink:href`. -/
def xlinkHref : String := nsTag XLINK_NS "href"

/-! Textarea flattening (`convert_textarea_to_text`, iwb2svg.py lines
80-152). -/

/-- Python truthiness of a text/tail copy (`if textarea.text: ...`). -/
def truthyStr : Option String → Option String
  | some s => if s ≠ "" then some s else none
  | none => none

/-- The clone made for a tspan that follows a tbreak (lines 120-131):
same tag, a copy of the attributes with `x` and `dy` forced, and the
text, tail and children carried over unchanged. -/
def forcedLineStart (textX : String) (c : Element) : Element :=
  .mk c.tag (setA (setA c.attrib "x" textX) "dy" "1.2em") c.text c.tail c.children

/-- The child-processing loop of `convert_textarea_to_text` (lines
101-133): drop tbreak children; clone a tspan that immediately follows
a tbreak with `x`/`dy` forced; pass everything else through.  `prev` is
the immediately preceding child in the original child list (the source
recovers it positionally via `list(textarea).index(child)`, which under
object identity is the loop position). -/
def processTAChildren (textX : String) : Option Element → List Element → List Element
  | _, [] => []
  | prev, c :: rest =>
    let tailL := processTAChildren textX (some c) rest
    if c.tag.endsWith "tbreak" then tailL
    else
      let hasPrevTbreak :=
        match prev with
        | some p => p.tag.endsWith "tbreak"
        | none => false
      if hasPrevTbreak && c.tag.endsWith "tspan" then
        forcedLineStart textX c :: tailL
      else c :: tailL

/-- Build the replacement text element for one textarea (lines 93-139):
an SVG `text` element with the textarea's attributes, its truthy text
and tail, and the processed children. -/
def buildTextElem (ta : Element) : Element :=
  .mk (svgTag "text") ta.attrib (truthyStr ta.text) (truthyStr ta.tail)
    (processTAChildren (getAD ta.attrib "x" "0") none ta.children)

mutual

/-- Conversion of every textarea-tagged element in a subtree.  The
source collects all textareas from the original tree and replaces each
in place (parent found via `.//tag/..` or the full-tree fallback), in
document order; under object identity the net effect is that every
textarea node below the root is replaced by its built text element.
Conversion is applied bottom-up here; this coincides with the source's
order because the tbreak/tspan branching only looks at tag suffixes,
which replacement never changes (a replaced child has tag `svg:text`,
and a textarea tag never ends in `tbreak`/`tspan`). -/
def convertTA : Element → Element
  | .mk t a x l cs =>
    let cs' := convertTAList cs
    if t.endsWith "textarea" then buildTextElem (.mk t a x l cs')
    else .mk t a x l cs'

def convertTAList : List Element → List Element
  | [] => []
  | c :: cs => convertTA c :: convertTAList cs

end

/-- `convert_textarea_to_text` (iwb2svg.py lines 80-152): the root
itself is never replaced (it has no parent; the fallback search finds
nothing), its descendants are converted. -/
def convert_textarea_to_text : Element → Element
  | .mk t a x l cs => .mk t a x l (convertTAList cs)

/-! Geometry extent calculation and canvas resizing (`fix_svg_size`,
iwb2svg.py lines 173-297). -/

/-- Python `float(elem.get(k, 0))`: a missing attribute defaults to 0,
a present one is parsed (failure propagates as `none`, caught by the
per-element handler). -/
def attrFloat (e : Element) (k : String) : Option ℚ :=
  match e.getAttr k with
  | none => some 0
  | some s => parseFloat s

/-- Python `str.split()` with no argument: split on whitespace runs,
no empty tokens. -/
def splitPyWs (s : String) : List String :=
  (s.split (fun c => c.isWhitespace)).filter (fun t => t ≠ "")

/-- The coordinate-pair loop shared by the polygon/polyline and path
branches (lines 251-256 and 279-284): consume consecutive pairs,
raising the running maxima; a parse failure aborts the remainder of
this element's loop but keeps the updates already made (the exception
jumps out of the `for`). -/
def updPairs (tx ty : ℚ) : ℚ × ℚ → List String → ℚ × ℚ
  | m, a :: b :: rest =>
    (match parseFloat a, parseFloat b with
     | some xa, some yb =>
        updPairs tx ty (max m.1 (xa + tx), max m.2 (yb + ty)) rest
     | _, _ => m)
  | m, _ => m

/-- Python `re.findall(r"-?\d+\.?\d*", d)`: all non-overlapping matches
left to right.  Fuel-based recursion (one character is always consumed,
so `length + 1` fuel is exact). -/
def scanNumsF : Nat → List Char → List String
  | 0, _ => []
  | _ + 1, [] => []
  | fuel + 1, c :: cs =>
    if c.isDigit || (c == '-' && (match cs with | d :: _ => d.isDigit | [] => false))
    then
      let (sgn, r0) : List Char × List Char :=
        if c = '-' then (['-'], cs) else ([], c :: cs)
      let (ds, r1) := r0.span Char.isDigit
      match r1 with
      | '.' :: r2 =>
        let (fs, r3) := r2.span Char.isDigit
        String.mk (sgn ++ ds ++ '.' :: fs) :: scanNumsF fuel r3
      | _ => String.mk (sgn ++ ds) :: scanNumsF fuel r1
    else scanNumsF fuel cs

def scanNums (s : String) : List String :=
  scanNumsF (s.length + 1) s.toList

/-- The per-element update of the running maxima (`fix_svg_size`'s scan
body, lines 199-286).  Every element is visited; the local tag selects
the extent rule; the element's own `transform` supplies `(tx, ty)`. -/
def updMax (m : ℚ × ℚ) (e : Element) : ℚ × ℚ :=
  let lname := localName e.tag
  let txy := parse_transform_translate (e.getAttrD "transform" "")
  let tx := txy.1
  let ty := txy.2
  if lname = "rect" then
    match attrFloat e "x", attrFloat e "y", attrFloat e "width",
        attrFloat e "height" with
    | some x, some y, some w, some h =>
        (max m.1 (x + tx + w), max m.2 (y + ty + h))
    | _, _, _, _ => m
  else if lname = "circle" then
    match attrFloat e "cx", attrFloat e "cy", attrFloat e "r" with
    | some cx, some cy, some r =>
        (max m.1 (cx + tx + r), max m.2 (cy + ty + r))
    | _, _, _ => m
  else if lname = "ellipse" then
    match attrFloat e "cx", attrFloat e "cy", attrFloat e "rx",
        attrFloat e "ry" with
    | some cx, some cy, some rx, some ry =>
        (max m.1 (cx + tx + rx), max m.2 (cy + ty + ry))
    | _, _, _, _ => m
  else if lname = "polyline" ∨ lname = "polygon" then
    let points_str := e.getAttrD "points" ""
    if points_str ≠ "" then
      updPairs tx ty m (splitPyWs (points_str.replace "," " "))
    else m
  else if lname = "image" then
    match attrFloat e "x", attrFloat e "y", attrFloat e "width",
        attrFloat e "height" with
    | some x, some y, some w, some h =>
        (max m.1 (x + tx + w), max m.2 (y + ty + h))
    | _, _, _, _ => m
  else if lname = "path" then
    let d_str := e.getAttrD "d" ""
    if d_str ≠ "" then updPairs tx ty m (scanNums d_str) else m
  else m

/-- The content bounding box `(max_x, max_y)`: fold the per-element
update over the whole tree in document order, starting from (0,0). -/
def computeMax (root : Element) : ℚ × ℚ :=
  (preorder root).foldl updMax (0, 0)

/-- The element's geometry parse fails before any coordinate pair is
consumed: for rect/circle/ellipse/image, one of the parsed attributes
is present but non-numeric (the branch raises before updating the
maxima); for polygon/polyline, the first coordinate pair already fails
to parse.  Path data never raises: its tokens are extracted by the
numeric pattern itself (non-numeric text in `d` is skipped, not a
failure).  The branch chain mirrors `updMax`. -/
def geomParseFails (e : Element) : Bool :=
  let lname := localName e.tag
  if lname = "rect" then
    (attrFloat e "x").isNone || (attrFloat e "y").isNone ||
      (attrFloat e "width").isNone || (attrFloat e "height").isNone
  else if lname = "circle" then
    (attrFloat e "cx").isNone || (attrFloat e "cy").isNone ||
      (attrFloat e "r").isNone
  else if lname = "ellipse" then
    (attrFloat e "cx").isNone || (attrFloat e "cy").isNone ||
      (attrFloat e "rx").isNone || (attrFloat e "ry").isNone
  else if lname = "polyline" ∨ lname = "polygon" then
    (match splitPyWs ((e.getAttrD "points" "").replace "," " ") with
     | a :: b :: _ => (parseFloat a).isNone || (parseFloat b).isNone
     | _ => false)
  else if lname = "image" then
    (attrFloat e "x").isNone || (attrFloat e "y").isNone ||
      (attrFloat e "width").isNone || (attrFloat e "height").isNone
  else false

/-- `fix_svg_size` (iwb2svg.py lines 173-297).  Both declared
dimensions must pass the digit guard and parse; otherwise the function
is a no-op (early return, or the blanket exception handler).  On
overflow both attributes are overwritten with the stringified enlarged
values. -/
def fix_svg_size (root : Element) (margin : ℚ) : Element :=
  match parseSvgDim (root.getAttrD "width" "100%"),
      parseSvgDim (root.getAttrD "height" "100%") with
  | some w, some h =>
    let m := computeMax root
    if m.1 > w ∨ m.2 > h then
      (root.setAttr "width" (pyFloatStr (max w (m.1 + margin)))).setAttr
        "height" (pyFloatStr (max h (m.2 + margin)))
    else root
  | _, _ => root

/-! Background-image deletion (`delete_background_images`, iwb2svg.py
lines 300-309). -/

/-- An SVG image element whose `id` starts with `backgroundImage`. -/
def isBgImage (e : Element) : Bool :=
  e.tag == svgTag "image" &&
    (match e.getAttr "id" with
     | some v => v.startsWith "backgroundImage"
     | none => false)

mutual

/-- `delete_background_images` (iwb2svg.py lines 300-309).  The source
collects every matching image below the root (`findall(".//svg:image")`)
and removes each one from its parent; under object identity each
collected node is removed from its own parent (a node whose ancestor
was already removed is simply not found and skipped), so the net effect
is dropping every background-image child everywhere in the tree.  The
root itself is never a candidate (`.//` excludes it). -/
def delete_background_images : Element → Element
  | .mk t a x l cs => .mk t a x l (deleteBgList cs)

def deleteBgList : List Element → List Element
  | [] => []
  | c :: cs =>
    if isBgImage c then deleteBgList cs
    else delete_background_images c :: deleteBgList cs

end

/-! The archive and the image passes (iwb2svg.py lines 312-353). -/

/-- A zip archive: named entries with byte contents (bytes as `Nat`s).
`getinfo`/`read` are association lookups; `KeyError` is `none`. -/
structure Archive where
  entries : List (String × List Nat)

def Archive.lookup (z : Archive) (name : String) : Option (List Nat) :=
  match z.entries.find? (fun p => p.1 == name) with
  | some p => some p.2
  | none => none

/-- Rewrite pass of one image element in
`fix_compressed_unexistent_images` (lines 315-327): a `.png` href under
`images/` that is absent from the archive is redirected to the
`compressed_` candidate when that candidate exists; otherwise left
alone. -/
def fixCompressedOne (z : Archive) (e : Element) : Element :=
  match e.getAttr xlinkHref with
  | some href =>
    if href.startsWith "images/" && href.endsWith ".png" then
      match z.lookup href with
      | some _ => e
      | none =>
        let compressed_href := href.replace "images/" "images/compressed_"
        match z.lookup compressed_href with
        | some _ => e.setAttr xlinkHref compressed_href
        | none => e
    else e
  | none => e

/-- Python `pathlib.Path(p).suffix`: the extension of the final
component — the part from the last dot, provided that dot is neither
the first nor the last character of the component. -/
def pathSuffix (p : String) : String :=
  let comp := (p.splitOn "/").getLastD p
  let cs := comp.toList
  match (List.range cs.length).filter (fun i => cs.getD i ' ' = '.') with
  | [] => ""
  | is =>
    let i := is.getLastD 0
    if 0 < i ∧ i < cs.length - 1 then String.mk (cs.drop i) else ""

/-- MIME sniffing by extension (lines 339-346). -/
def mimeFromExt (ext : String) : String :=
  if ext = ".png" then "image/png"
  else if ext = ".jpg" then "image/jpeg"
  else if ext = ".jpeg" then "image/jpeg"
  else if ext = ".gif" then "image/gif"
  else if ext = ".svg" then "image/svg+xml"
  else "application/octet-stream"

def b64Alphabet : List Char :=
  "ABCDEFGHIJKLMNOPQRSTUVWXYZabcdefghijklmnopqrstuvwxyz0123456789+/".toList

def b64Char (n : Nat) : Char := b64Alphabet.getD n 'A'

/-- Model of `base64.b64encode` on a byte list (standard alphabet and
padding). -/
def base64Encode : List Nat → String
  | [] => ""
  | [a] =>
    String.mk [b64Char (a / 4), b64Char (a % 4 * 16)] ++ "=="
  | [a, b] =>
    String.mk [b64Char (a / 4), b64Char (a % 4 * 16 + b / 16),
      b64Char (b % 16 * 4)] ++ "="
  | a :: b :: c :: rest =>
    String.mk [b64Char (a / 4), b64Char (a % 4 * 16 + b / 16),
      b64Char (b % 16 * 4 + c / 64), b64Char (c % 64)] ++ base64Encode rest

/-- Rewrite pass of one image element in `process_images_data_uri`
(lines 333-353): read the referenced entry, sniff the MIME type from
the extension, embed as a base64 data URI; a missing entry is a warning
and the href is left unchanged. -/
def dataUriOne (z : Archive) (e : Element) : Element :=
  match e.getAttr xlinkHref with
  | some href =>
    if href.startsWith "images/" then
      match z.lookup href with
      | some image_data =>
        let mime_type := mimeFromExt (pathSuffix href).toLower
        e.setAttr xlinkHref
          ("data:" ++ mime_type ++ ";base64," ++ base64Encode image_data)
      | none => e
    else e
  | none => e

mutual

/-- Apply an attribute-only rewrite to every SVG image element in a
subtree (the `findall(".//svg:image")` loops: all image descendants in
document order; the rewrites are independent per element). -/
def mapImages (f : Element → Element) : Element → Element
  | .mk t a x l cs =>
    let e := Element.mk t a x l (mapImagesList f cs)
    if e.tag == svgTag "image" then f e else e

def mapImagesList (f : Element → Element) : List Element → List Element
  | [] => []
  | c :: cs => mapImages f c :: mapImagesList f cs

end

/-- `fix_compressed_unexistent_images` (iwb2svg.py lines 312-327).
`.//` excludes the root itself (which is the synthetic `svg` root). -/
def fix_compressed_unexistent_images (root : Element) (z : Archive) : Element :=
  match root with
  | .mk t a x l cs => .mk t a x l (mapImagesList (fixCompressedOne z) cs)

/-- `process_images_data_uri` (iwb2svg.py lines 330-353). -/
def process_images_data_uri (root : Element) (z : Archive) : Element :=
  match root with
  | .mk t a x l cs => .mk t a x l (mapImagesList (dataUriOne z) cs)

/-! Page extraction (`extract_iwb_to_svg`, iwb2svg.py lines 368-446). -/

/-- The three fatal conditions of the extraction front end (spec names
in parentheses): an unreadable archive (`MalformedArchiveError`, an
uncaught `zipfile.BadZipFile`), no XML document entry
(`NoDocumentFoundError`), no page elements (`NoPagesFoundError`). -/
inductive FatalCondition where
  | malformedArchive
  | noDocumentFound
  | noPagesFound
deriving DecidableEq

/-- The process exit status of each fatal condition: both in-source
aborts call `sys.exit(1)` (lines 392 and 402), and an uncaught
`BadZipFile` terminates the interpreter with status 1 as well. -/
def fatalExitCode : FatalCondition → Nat
  | .malformedArchive => 1
  | .noDocumentFound => 1
  | .noPagesFound => 1

/-- The diagnostic message printed for each fatal condition.  The two
in-source aborts print specific messages (lines 391 and 401); the
unreadable-archive case surfaces as an uncaught exception traceback,
not a message of this program (`none`). -/
def fatalMessage : FatalCondition → Option String
  | .malformedArchive => none
  | .noDocumentFound => some "No XML file found in IWB."
  | .noPagesFound => some "No <svg:page> elements found."

/-- The first archive entry whose lowercased name ends in `.xml`
(lines 384-388). -/
def findXmlName (z : Archive) : Option String :=
  match z.entries.find? (fun p => p.1.toLower.endsWith ".xml") with
  | some p => some p.1
  | none => none

/-- `root.findall(".//svg:page", ns)`: all page-tagged descendants in
document order (line 398). -/
def findPages (root : Element) : List Element :=
  (descendants root).filter (fun e => e.tag == svgTag "page")

/-- The per-page pipeline of `extract_iwb_to_svg` (lines 408-445):
synthesize a standalone `svg` root carrying the page's declared size,
then run the image passes, background deletion, textarea flattening,
fill stripping and canvas fixing according to the options.  (The
`copy_directory` mode's file extraction writes image files, not page
documents, and changes no hrefs; it is not modelled.) -/
def processPage (z : Archive) (fix_fills fix_size : Bool)
    (images_mode : String) (delete_background : Bool) (page : Element) :
    Element :=
  let attribs := [("version", "1.1"),
    ("width", getAD page.attrib "width" "100%"),
    ("height", getAD page.attrib "height" "100%")]
  let r0 := Element.mk (svgTag "svg") attribs none none page.children
  let r1 := fix_compressed_unexistent_images r0 z
  let r2 := if images_mode == "data_uri" then process_images_data_uri r1 z else r1
  let r3 := if delete_background then delete_background_images r2 else r2
  let r4 := convert_textarea_to_text r3
  let r5 := if fix_fills then remove_fills r4 else r4
  if fix_size then fix_svg_size r5 100 else r5

/-- `extract_iwb_to_svg` (iwb2svg.py lines 368-446), for an archive
that opened successfully.  XML deserialization is out of scope, so the
document parser is a parameter; `z.lookup` models `z.read`.  A fatal
condition aborts before the page loop — the error result carries no
output files; a success carries the `page_<idx>.svg` outputs in page
order. -/
def extract_iwb_to_svg (parseXml : List Nat → Element) (z : Archive)
    (fix_fills fix_size : Bool) (images_mode : String)
    (delete_background : Bool) :
    Except FatalCondition (List (String × Element)) :=
  match findXmlName z with
  | none => .error .noDocumentFound
  | some xml_name =>
    let root := parseXml ((z.lookup xml_name).getD [])
    let pages := findPages root
    if pages.isEmpty then .error .noPagesFound
    else
      .ok (pages.enum.map (fun p =>
        ("page_" ++ toString p.1 ++ ".svg",
         processPage z fix_fills fix_size images_mode delete_background p.2)))

/-! Concrete fixtures used by the theorems below. -/

/-- A 100x100 page holding a rect at (10,10) of size (50,50) whose
`translate(60,0)` sits on an ancestor `g`, as the spec's fixture
describes it. -/
def rectAncFix : Element :=
  .mk (svgTag "svg") [("width", "100"), ("height", "100")] none none
    [.mk (svgTag "g") [("transform", "translate(60,0)")] none none
      [.mk (svgTag "rect")
        [("x", "10"), ("y", "10"), ("width", "50"), ("height", "50")]
        none none []]]

/-- The same page with the `translate(60,0)` on the rect itself. -/
def rectSelfFix : Element :=
  .mk (svgTag "svg") [("width", "100"), ("height", "100")] none none
    [.mk (svgTag "g") [] none none
      [.mk (svgTag "rect")
        [("x", "10"), ("y", "10"), ("width", "50"), ("height", "50"),
         ("transform", "translate(60,0)")]
        none none []]]

/-- A polygon whose `points` has a valid first pair and a malformed
second token. -/
def polyBadFix : Element :=
  .mk (svgTag "polygon") [("points", "50,60 x,10 900,900")] none none []

def polyBadRoot : Element := .mk (svgTag "svg") [] none none [polyBadFix]

/-- A rect with a present but non-numeric coordinate. -/
def rectBadFix : Element :=
  .mk (svgTag "rect") [("x", "abc"), ("width", "50")] none none []

def taSpanA : Element := .mk (svgTag "tspan") [] (some "A") none []

def taBreakFix : Element := .mk (svgTag "tbreak") [] none none []

def taSpanB : Element := .mk (svgTag "tspan") [] (some "B") none []

/-- A textarea with `x="5"` and children tspan("A"), tbreak,
tspan("B"). -/
def taFix : Element :=
  .mk (svgTag "textarea") [("x", "5")] none none [taSpanA, taBreakFix, taSpanB]

def taRootFix : Element := .mk (svgTag "svg") [] none none [taFix]

/-- The expected flattening: a text element with the textarea's
attributes and two tspans, the second with `x="5"` and `dy="1.2em"`. -/
def taExpectedFix : Element :=
  .mk (svgTag "svg") [] none none
    [.mk (svgTag "text") [("x", "5")] none none
      [taSpanA,
       .mk (svgTag "tspan") [("x", "5"), ("dy", "1.2em")] (some "B") none []]]

def c5rect1 : Element :=
  .mk (svgTag "rect") [("style", "fill:#fff;stroke:#000")] none none []

def c5rect2 : Element := .mk (svgTag "rect") [] none none []

def c5rect3 : Element :=
  .mk (svgTag "rect") [("id", "Autoshape1"), ("fill", "red")] none none []

def c5Root : Element := .mk (svgTag "svg") [] none none [c5rect1, c5rect2, c5rect3]

def c5Expected : Element :=
  .mk (svgTag "svg") [] none none
    [.mk (svgTag "rect") [("style", "fill:none;stroke:#000")] none none [],
     .mk (svgTag "rect") [("fill", "none")] none none [],
     c5rect3]

/-- A page whose one image references `images/a.png`. -/
def imgRootFix : Element :=
  .mk (svgTag "svg") [] none none
    [.mk (svgTag "image") [(xlinkHref, "images/a.png")] none none []]

/-- An archive holding only the compressed variant of the image. -/
def zCompressedFix : Archive := ⟨[("images/compressed_a.png", [1, 2, 3])]⟩

/-- A parsed document with no page elements anywhere. -/
def noPagesDocFix : Element :=
  .mk (svgTag "svg") [] none none [.mk (svgTag "g") [] none none []]

/-- An archive whose only entry is an XML document. -/
def zXmlFix : Archive := ⟨[("doc.XML", [7])]⟩

/-- A rect carrying a stroke attribute, for the frame property. -/
def strokeRectFix : Element :=
  .mk (svgTag "rect") [("stroke", "blue"), ("fill", "red")] none none []

/-- A vendor-exempt element with decorative fill. -/
def exemptRectFix : Element :=
  .mk (svgTag "rect") [("id", "Word3"), ("fill", "red")] none none []

/-- A non-background image. -/
def keepImgFix : Element := .mk (svgTag "image") [("id", "photo7")] none none []

def keepRootFix : Element := .mk (svgTag "svg") [] none none [keepImgFix]

/-- A non-background image nested inside a background image. -/
def bgInnerFix : Element := .mk (svgTag "image") [("id", "keep")] none none []

def bgOuterFix : Element :=
  .mk (svgTag "image") [("id", "backgroundImage1")] none none [bgInnerFix]

def bgRootFix : Element := .mk (svgTag "svg") [] none none [bgOuterFix]

/-! The claims. -/

/-- C1 counterexample.  The claim puts the `translate(60,0)` on an
ancestor of the rect, but the extent scan reads only each element's own
`transform` attribute (iwb2svg.py line 206), so the page's content
maxima are (60,60), nothing overflows the declared 100x100 canvas, and
`fix_svg_size` with margin 100 leaves the page untouched: the declared
width stays "100" instead of becoming 220, and the canvas is not
resized to at least 170x160. -/
theorem C1_ancestor_translate_ignored :
    computeMax rectAncFix = (60, 60) ∧
    fix_svg_size rectAncFix 100 = rectAncFix ∧
    (fix_svg_size rectAncFix 100).getAttr "width" = some "100" := by
  refine ⟨?_, ?_, ?_⟩ <;> with_unfolding_all decide

/-- C1, amended: with the `translate(60,0)` on the rect element itself
(the only transform the calculator reads), the content maxima are
(120,60); since 120 > 100 the canvas is resized with margin 100 to
width 220 and height 160 (at least 170x160), and both declared
attributes are overwritten with the stringified values. -/
theorem C1_resize_with_own_translate :
    computeMax rectSelfFix = (120, 60) ∧
    (fix_svg_size rectSelfFix 100).getAttr "width" = some "220.0" ∧
    (fix_svg_size rectSelfFix 100).getAttr "height" = some "160.0" := by
  refine ⟨?_, ?_, ?_⟩ <;> with_unfolding_all decide

/-- C5.  The three style-normalization fixtures behave as specified:
`style="fill:#fff;stroke:#000"` becomes `style="fill:none;stroke:#000"`,
a bare rect gains `fill="none"`, and the `Autoshape1` rect is left
entirely unchanged by `remove_fills`. -/
theorem C5_style_normalizer_fixtures : remove_fills c5Root = c5Expected := by
  with_unfolding_all decide

/-- C8 counterexample.  Two distinct fatal conditions — no document
entry found and zero page elements — terminate with the same process
exit status 1 (`sys.exit(1)` at iwb2svg.py lines 392 and 402), so the
exit statuses of the fatal conditions are not pairwise distinct as the
claim requires. -/
theorem C8_exit_codes_not_distinct :
    FatalCondition.noDocumentFound ≠ FatalCondition.noPagesFound ∧
    fatalExitCode .noDocumentFound = fatalExitCode .noPagesFound := by
  exact ⟨by decide, rfl⟩

/-- C8, amended: every fatal condition terminates the process with exit
status 1 (not distinct statuses); the two in-source aborts do print
specific, mutually distinct diagnostic messages, while the unreadable
archive surfaces as an uncaught `BadZipFile` traceback rather than a
message of this program. -/
theorem C8_fatal_reporting :
    (∀ c, fatalExitCode c = 1) ∧
    (fatalMessage .noDocumentFound).isSome = true ∧
    (fatalMessage .noPagesFound).isSome = true ∧
    fatalMessage .noDocumentFound ≠ fatalMessage .noPagesFound ∧
    (fatalMessage .malformedArchive).isNone = true := by
  refine ⟨fun c => by cases c <;> rfl, rfl, rfl, by decide, rfl⟩

/-- C3 counterexample.  A polygon whose `points` contains a malformed
token (`x`) after one valid pair is an element "whose geometry
attributes fail to parse", yet it does not contribute nothing: the
pair parsed before the failure raises the maxima to (50,60) (the
exception leaves the already-made updates in place, iwb2svg.py lines
245-258), and likewise the page scan yields (50,60), not (0,0). -/
theorem C3_partial_pair_contribution :
    updMax (0, 0) polyBadFix = (50, 60) ∧ computeMax polyBadRoot = (50, 60) := by
  constructor <;> with_unfolding_all decide

/-- C3, amended.  A parse failure never aborts the scan (the update
function is total and every element is folded over); an element whose
geometry parse fails before any coordinate is consumed — a rect,
circle, ellipse or image with a present but non-numeric attribute, or a
polygon/polyline whose first pair fails — contributes nothing to the
running maxima.  (Missing attributes default to 0 rather than failing;
pairs parsed before a later malformed token in `points` still
contribute; numeric tokens in `d` are extracted by pattern and never
fail.) -/
theorem C3_initial_failure_contributes_nothing :
    ∀ (m : ℚ × ℚ) (e : Element), geomParseFails e = true → updMax m e = m := by
  intro m e h
  simp only [geomParseFails] at h
  simp only [updMax]
  by_cases h1 : localName e.tag = "rect"
  · rw [if_pos h1] at h ⊢
    rcases hx : attrFloat e "x" with _ | x <;>
      rcases hy : attrFloat e "y" with _ | y <;>
      rcases hw : attrFloat e "width" with _ | w <;>
      rcases hh : attrFloat e "height" with _ | hv <;>
      simp [hx, hy, hw, hh] at h ⊢
  rw [if_neg h1] at h ⊢
  by_cases h2 : localName e.tag = "circle"
  · rw [if_pos h2] at h ⊢
    rcases hx : attrFloat e "cx" with _ | x <;>
      rcases hy : attrFloat e "cy" with _ | y <;>
      rcases hr : attrFloat e "r" with _ | r <;>
      simp [hx, hy, hr] at h ⊢
  rw [if_neg h2] at h ⊢
  by_cases h3 : localName e.tag = "ellipse"
  · rw [if_pos h3] at h ⊢
    rcases hx : attrFloat e "cx" with _ | x <;>
      rcases hy : attrFloat e "cy" with _ | y <;>
      rcases hrx : attrFloat e "rx" with _ | rx <;>
      rcases hry : attrFloat e "ry" with _ | ry <;>
      simp [hx, hy, hrx, hry] at h ⊢
  rw [if_neg h3] at h ⊢
  by_cases h4 : localName e.tag = "polyline" ∨ localName e.tag = "polygon"
  · rw [if_pos h4] at h ⊢
    rcases hpts : splitPyWs ((e.getAttrD "points" "").replace "," " ") with
      _ | ⟨a, _ | ⟨b, rest⟩⟩ <;> rw [hpts] at h
    · simp at h
    · simp at h
    · rcases hpa : parseFloat a with _ | xa <;>
        rcases hpb : parseFloat b with _ | yb <;>
        simp [hpa, hpb] at h <;>
        simp [updPairs, hpts, hpa, hpb]
  rw [if_neg h4] at h ⊢
  by_cases h5 : localName e.tag = "image"
  · rw [if_pos h5] at h ⊢
    rcases hx : attrFloat e "x" with _ | x <;>
      rcases hy : attrFloat e "y" with _ | y <;>
      rcases hw : attrFloat e "width" with _ | w <;>
      rcases hh : attrFloat e "height" with _ | hv <;>
      simp [hx, hy, hw, hh] at h ⊢
  rw [if_neg h5] at h
  simp at h

/-- C3 witness: a rect with `x="abc"` fails its geometry parse and
leaves the running maxima (1,2) unchanged. -/
theorem C3_initial_failure_witness :
    geomParseFails rectBadFix = true ∧ updMax (1, 2) rectBadFix = (1, 2) :=
  ⟨by with_unfolding_all decide,
   C3_initial_failure_contributes_nothing (1, 2) rectBadFix
     (by with_unfolding_all decide)⟩

/-- C2.  For a page whose declared width and height both pass the digit
guard and parse to positive numbers: when the computed content maxima
overflow either dimension, both declared attributes are overwritten
with the stringified `max(width, max_x + margin)` and
`max(height, max_y + margin)`, each at least the old value (the resizer
never shrinks); otherwise the page is left untouched. -/
theorem C2_resizer_monotonic (root : Element) (margin w h : ℚ)
    (hw : parseSvgDim (root.getAttrD "width" "100%") = some w)
    (hh : parseSvgDim (root.getAttrD "height" "100%") = some h)
    (_hwpos : 0 < w) (_hhpos : 0 < h) :
    ((computeMax root).1 > w ∨ (computeMax root).2 > h →
      fix_svg_size root margin =
        (root.setAttr "width"
          (pyFloatStr (max w ((computeMax root).1 + margin)))).setAttr
          "height" (pyFloatStr (max h ((computeMax root).2 + margin))) ∧
      w ≤ max w ((computeMax root).1 + margin) ∧
      h ≤ max h ((computeMax root).2 + margin)) ∧
    (¬ ((computeMax root).1 > w ∨ (computeMax root).2 > h) →
      fix_svg_size root margin = root) := by
  unfold fix_svg_size
  rw [hw, hh]
  constructor
  · intro hov
    exact ⟨by simp only [if_pos hov], le_max_left _ _, le_max_left _ _⟩
  · intro hov
    simp only [if_neg hov]

/-- C2 witness: the overflowing fixture is resized to the stringified
maxima-plus-margin values. -/
theorem C2_resizer_witness :
    fix_svg_size rectSelfFix 100 =
      (rectSelfFix.setAttr "width"
        (pyFloatStr (max 100 ((computeMax rectSelfFix).1 + 100)))).setAttr
        "height" (pyFloatStr (max 100 ((computeMax rectSelfFix).2 + 100))) := by
  have hm : computeMax rectSelfFix = (120, 60) := by with_unfolding_all decide
  have h := (C2_resizer_monotonic rectSelfFix 100 100 100
    (by with_unfolding_all decide) (by with_unfolding_all decide)
    (by norm_num) (by norm_num)).1
  refine (h ?_).1
  rw [hm]
  norm_num

/-- C7.  Whenever the parsed document of the archive's XML entry
contains zero page elements, extraction aborts with the
`NoPagesFoundError`-equivalent fatal condition before the per-page
loop: the result is the error value, which carries no `page_<N>.svg`
outputs. -/
theorem C7_no_pages_aborts (parseXml : List Nat → Element) (z : Archive)
    (ff fs : Bool) (im : String) (db : Bool) (xml_name : String)
    (hx : findXmlName z = some xml_name)
    (hp : findPages (parseXml ((z.lookup xml_name).getD [])) = []) :
    extract_iwb_to_svg parseXml z ff fs im db = .error .noPagesFound := by
  unfold extract_iwb_to_svg
  rw [hx]
  simp [hp]

/-- C7 witness: an archive with one XML entry parsing to a pageless
document aborts with the no-pages fatal condition. -/
theorem C7_no_pages_witness :
    extract_iwb_to_svg (fun _ => noPagesDocFix) zXmlFix true true "data_uri" false
      = .error .noPagesFound :=
  C7_no_pages_aborts (fun _ => noPagesDocFix) zXmlFix true true "data_uri" false
    "doc.XML" (by with_unfolding_all decide) (by with_unfolding_all decide)

/-! Attribute-list lemmas shared by several claims. -/

theorem getA_setA_self (a : List (String × String)) (k v : String) :
    getA (setA a k v) k = some v := by
  induction a with
  | nil => simp [setA, getA]
  | cons p rest ih =>
    obtain ⟨k', v'⟩ := p
    by_cases h : k' = k
    · simp [setA, getA, h]
    · simp [setA, getA, h, ih]

theorem getA_setA_ne (a : List (String × String)) (k k' v : String)
    (h : k ≠ k') : getA (setA a k v) k' = getA a k' := by
  induction a with
  | nil => simp [setA, getA, h]
  | cons p rest ih =>
    obtain ⟨k'', v''⟩ := p
    by_cases h2 : k'' = k
    · subst h2
      simp [setA, getA, h]
    · simp [setA, getA, h2, ih]

theorem isSome_getA_setA (a : List (String × String)) (k k' v : String)
    (h : (getA a k').isSome) : (getA (setA a k v) k').isSome := by
  by_cases hk : k = k'
  · subst hk
    simp [getA_setA_self]
  · rwa [getA_setA_ne a k k' v hk]

/-- C6.  For any archive holding `images/compressed_a.png` (with bytes
`B`) but not `images/a.png`, the repair pass rewrites the image's href
to the compressed candidate, and the inline-data-uri pass then embeds
exactly `data:image/png;base64,` followed by the base64 encoding of
`B`; when neither the literal nor the compressed candidate exists, the
repair pass leaves the href unchanged. -/
theorem C6_image_repair_roundtrip (z : Archive) (B : List Nat)
    (habs : z.lookup "images/a.png" = none)
    (hcomp : z.lookup "images/compressed_a.png" = some B) :
    fix_compressed_unexistent_images imgRootFix z =
      .mk (svgTag "svg") [] none none
        [.mk (svgTag "image") [(xlinkHref, "images/compressed_a.png")]
          none none []] ∧
    process_images_data_uri (fix_compressed_unexistent_images imgRootFix z) z =
      .mk (svgTag "svg") [] none none
        [.mk (svgTag "image")
          [(xlinkHref, "data:image/png;base64," ++ base64Encode B)]
          none none []] ∧
    (∀ z' : Archive, z'.lookup "images/a.png" = none →
      z'.lookup "images/compressed_a.png" = none →
      fix_compressed_unexistent_images imgRootFix z' = imgRootFix) := by
  have hcond : ("images/a.png".startsWith "images/" &&
      "images/a.png".endsWith ".png") = true := by with_unfolding_all decide
  have hrep : "images/a.png".replace "images/" "images/compressed_" =
      "images/compressed_a.png" := by with_unfolding_all decide
  have hcond2 : "images/compressed_a.png".startsWith "images/" = true := by
    with_unfolding_all decide
  have hmime : mimeFromExt (pathSuffix "images/compressed_a.png").toLower =
      "image/png" := by with_unfolding_all decide
  have htag : (svgTag "image" == svgTag "image") = true := by
    with_unfolding_all decide
  have hstr : ∀ b : String,
      "data:" ++ "image/png" ++ ";base64," ++ b =
        "data:image/png;base64," ++ b := by
    intro b
    congr 1
  refine ⟨?_, ?_, ?_⟩
  · simp only [fix_compressed_unexistent_images, imgRootFix, mapImagesList,
      mapImages, Element.tag, htag, if_pos, fixCompressedOne, Element.getAttr,
      Element.attrib, getA, if_pos rfl, hcond, habs, hrep, hcomp,
      Element.setAttr, setA]
  · simp only [fix_compressed_unexistent_images, imgRootFix, mapImagesList,
      mapImages, Element.tag, htag, if_pos, fixCompressedOne, Element.getAttr,
      Element.attrib, getA, if_pos rfl, hcond, habs, hrep, hcomp,
      Element.setAttr, setA, process_images_data_uri, dataUriOne, hcond2,
      hmime, hstr]
  · intro z' habs' hcomp'
    simp only [fix_compressed_unexistent_images, imgRootFix, mapImagesList,
      mapImages, Element.tag, htag, if_pos, fixCompressedOne, Element.getAttr,
      Element.attrib, getA, if_pos rfl, hcond, habs', hrep, hcomp']

/-- C6 witness: the concrete archive with compressed bytes [1,2,3]
round-trips to the expected data URI. -/
theorem C6_image_repair_witness :
    process_images_data_uri
      (fix_compressed_unexistent_images imgRootFix zCompressedFix)
      zCompressedFix =
      .mk (svgTag "svg") [] none none
        [.mk (svgTag "image")
          [(xlinkHref, "data:image/png;base64," ++ base64Encode [1, 2, 3])]
          none none []] :=
  (C6_image_repair_roundtrip zCompressedFix [1, 2, 3]
    (by with_unfolding_all decide) (by with_unfolding_all decide)).2.1

/-- C4.  Text flattening: every tbreak child is dropped (no element of
the processed child list carries a tbreak tag); a tspan child
immediately following a tbreak appears as its clone with `x` forced to
the textarea's anchor (default "0") and `dy` forced to `1.2em`, its
tag, text, tail and children preserved unchanged; and the concrete
fixture — textarea `x="5"` with children tspan("A"), tbreak,
tspan("B") — flattens to a text element with exactly the two expected
tspans. -/
theorem C4_textarea_flattening :
    (∀ textX prev cs, ∀ d ∈ processTAChildren textX prev cs,
        d.tag.endsWith "tbreak" = false) ∧
    (∀ textX prev l1 p c l2, p.tag.endsWith "tbreak" = true →
        c.tag.endsWith "tbreak" = false → c.tag.endsWith "tspan" = true →
        forcedLineStart textX c ∈
          processTAChildren textX prev (l1 ++ p :: c :: l2)) ∧
    (∀ textX c, (forcedLineStart textX c).tag = c.tag ∧
        (forcedLineStart textX c).text = c.text ∧
        (forcedLineStart textX c).tail = c.tail ∧
        (forcedLineStart textX c).children = c.children ∧
        (forcedLineStart textX c).getAttr "x" = some textX ∧
        (forcedLineStart textX c).getAttr "dy" = some "1.2em") ∧
    convert_textarea_to_text taRootFix = taExpectedFix := by
  refine ⟨?_, ?_, ?_, ?_⟩
  · intro textX prev cs
    induction cs generalizing prev with
    | nil => intro d hd; simp [processTAChildren] at hd
    | cons c rest ih =>
      intro d hd
      simp only [processTAChildren] at hd
      by_cases hb : c.tag.endsWith "tbreak" = true
      · rw [if_pos hb] at hd
        exact ih (some c) d hd
      · rw [if_neg hb] at hd
        rw [Bool.not_eq_true] at hb
        split at hd
        · rcases List.mem_cons.mp hd with hd1 | hd2
          · subst hd1
            simpa [forcedLineStart, Element.tag] using hb
          · exact ih (some c) d hd2
        · rcases List.mem_cons.mp hd with hd1 | hd2
          · subst hd1
            exact hb
          · exact ih (some c) d hd2
  · intro textX prev l1 p c l2 hp hc hts
    induction l1 generalizing prev with
    | nil =>
      simp only [List.nil_append, processTAChildren, hp, if_pos, hc, hts]
      simp
    | cons a l1' ih =>
      simp only [List.cons_append, processTAChildren]
      by_cases hb : a.tag.endsWith "tbreak" = true
      · rw [if_pos hb]
        exact ih (some a)
      · rw [if_neg hb]
        by_cases hf : ((match prev with
            | some q => q.tag.endsWith "tbreak"
            | none => false) && a.tag.endsWith "tspan") = true
        · rw [if_pos hf]
          exact List.mem_cons_of_mem _ (ih (some a))
        · rw [if_neg hf]
          exact List.mem_cons_of_mem _ (ih (some a))
  · intro textX c
    refine ⟨rfl, rfl, rfl, rfl, ?_, ?_⟩
    · simp only [forcedLineStart, Element.getAttr, Element.attrib]
      rw [getA_setA_ne _ "dy" "x" _ (by decide), getA_setA_self]
    · simp only [forcedLineStart, Element.getAttr, Element.attrib]
      rw [getA_setA_self]
  · with_unfolding_all decide

/-- C4 witness: in the fixture child list, the clone of tspan("B")
with forced `x="5"`/`dy="1.2em"` is produced, carrying the forced
line-spacing attribute. -/
theorem C4_textarea_witness :
    forcedLineStart "5" taSpanB ∈
      processTAChildren "5" none [taSpanA, taBreakFix, taSpanB] ∧
    (forcedLineStart "5" taSpanB).getAttr "dy" = some "1.2em" :=
  ⟨C4_textarea_flattening.2.1 "5" none [taSpanA] taBreakFix taSpanB []
      (by with_unfolding_all decide) (by with_unfolding_all decide)
      (by with_unfolding_all decide),
   (C4_textarea_flattening.2.2.1 "5" taSpanB).2.2.2.2.2⟩

theorem preorder_eq (e : Element) : preorder e = e :: descendants e := by
  cases e with
  | mk t a x l cs => rfl

theorem isBgImage_delete (e : Element) :
    isBgImage (delete_background_images e) = isBgImage e := by
  cases e with
  | mk t a x l cs => rfl

/-- C10 counterexample.  A non-background image nested inside a
background image is removed along with its parent: in the fixture the
inner image (`id="keep"`) is a descendant of the page before deletion
but the deleted page has no descendants left, so "every image element
whose id does not start with backgroundImage is kept" fails. -/
theorem C10_nested_image_removed :
    isBgImage bgInnerFix = false ∧ bgInnerFix ∈ descendants bgRootFix ∧
    descendants (delete_background_images bgRootFix) = [] := by
  refine ⟨?_, ?_, ?_⟩ <;> with_unfolding_all decide

/-- C10, amended.  With deletion enabled, every background image (SVG
image tagged element with id starting `backgroundImage`) is removed
from the page tree: no element of the deleted tree's descendants is a
background image.  Every non-background direct child is kept (with its
own subtree processed the same way) — unless it sits inside a removed
background image, whose whole subtree goes away. -/
theorem C10_background_deletion (root : Element) :
    (∀ d ∈ descendants (delete_background_images root), isBgImage d = false) ∧
    (∀ c ∈ root.children, isBgImage c = false →
      delete_background_images c ∈ (delete_background_images root).children) := by
  constructor
  · refine Element.strongInduction
      (fun e => ∀ d ∈ descendants (delete_background_images e),
        isBgImage d = false) ?_ root
    intro t a x l cs ih d hd
    simp only [delete_background_images, descendants, Element.children] at hd
    revert d
    have aux : ∀ ds : List Element,
        (∀ c ∈ ds, ∀ d ∈ descendants (delete_background_images c),
          isBgImage d = false) →
        ∀ d ∈ preorderList (deleteBgList ds), isBgImage d = false := by
      intro ds
      induction ds with
      | nil => intro _ d hd; simp [deleteBgList, preorderList] at hd
      | cons c cs' ihl =>
        intro hmem d hd
        simp only [deleteBgList] at hd
        by_cases hbg : isBgImage c = true
        · rw [if_pos hbg] at hd
          exact ihl (fun c' hc' => hmem c' (List.mem_cons_of_mem _ hc')) d hd
        · rw [if_neg hbg] at hd
          simp only [preorderList] at hd
          rcases List.mem_append.mp hd with hd1 | hd2
          · rw [preorder_eq] at hd1
            rcases List.mem_cons.mp hd1 with hd3 | hd4
            · subst hd3
              rw [isBgImage_delete]
              exact Bool.not_eq_true _ ▸ hbg
            · exact hmem c (List.mem_cons_self _ _) d hd4
          · exact ihl (fun c' hc' => hmem c' (List.mem_cons_of_mem _ hc')) d hd2
    exact fun d hd => aux cs ih d hd
  · intro c hc hbg
    cases root with
    | mk t a x l cs =>
      simp only [Element.children] at hc
      simp only [delete_background_images, Element.children]
      have aux2 : ∀ ds : List Element, c ∈ ds →
          delete_background_images c ∈ deleteBgList ds := by
        intro ds
        induction ds with
        | nil => intro h; simp at h
        | cons c0 cs' ihl =>
          intro h
          rcases List.mem_cons.mp h with h1 | h2
          · subst h1
            simp only [deleteBgList]
            rw [if_neg (by rw [hbg]; simp)]
            exact List.mem_cons_self _ _
          · simp only [deleteBgList]
            by_cases hb0 : isBgImage c0 = true
            · rw [if_pos hb0]
              exact ihl h2
            · rw [if_neg hb0]
              exact List.mem_cons_of_mem _ (ihl h2)
      exact aux2 cs hc

/-- C10 witness: a page whose only child is a non-background image
keeps that image under deletion. -/
theorem C10_background_witness :
    delete_background_images keepImgFix ∈
      (delete_background_images keepRootFix).children :=
  (C10_background_deletion keepRootFix).2 keepImgFix
    (by with_unfolding_all decide) (by with_unfolding_all decide)

/-! Step lemmas for the `remove_fills` frame property. -/

theorem fillAttrStep_other (a : List (String × String)) (k : String)
    (hk : k ≠ "fill") : getA (fillAttrStep a) k = getA a k := by
  unfold fillAttrStep
  split
  · exact getA_setA_ne a "fill" k "none" (Ne.symm hk)
  · rfl

theorem styleStep_other (lname : String) (a1 : List (String × String))
    (k : String) (hk : k ≠ "style") :
    getA (styleStep lname a1) k = getA a1 k := by
  simp only [styleStep]
  split
  · split
    · split <;> split <;>
        first
        | exact getA_setA_ne _ "style" k _ (Ne.symm hk)
        | rfl
    · rfl
  · rfl

theorem finalFillStep_other (lname : String) (a2 : List (String × String))
    (k : String) (hk : k ≠ "fill") :
    getA (finalFillStep lname a2) k = getA a2 k := by
  unfold finalFillStep
  split
  · exact getA_setA_ne _ "fill" k _ (Ne.symm hk)
  · rfl

theorem fillAttrStep_keeps (a : List (String × String)) (k : String)
    (h : (getA a k).isSome = true) :
    (getA (fillAttrStep a) k).isSome = true := by
  unfold fillAttrStep
  split
  · exact isSome_getA_setA a "fill" k "none" h
  · exact h

theorem styleStep_keeps (lname : String) (a1 : List (String × String))
    (k : String) (h : (getA a1 k).isSome = true) :
    (getA (styleStep lname a1) k).isSome = true := by
  simp only [styleStep]
  split
  · split
    · split <;> split <;>
        first
        | exact isSome_getA_setA _ "style" k _ h
        | exact h
    · exact h
  · exact h

theorem finalFillStep_keeps (lname : String) (a2 : List (String × String))
    (k : String) (h : (getA a2 k).isSome = true) :
    (getA (finalFillStep lname a2) k).isSome = true := by
  unfold finalFillStep
  split
  · exact isSome_getA_setA _ "fill" k _ h
  · exact h

theorem stripFills_other (tag : String) (a : List (String × String))
    (k : String) (h1 : k ≠ "fill") (h2 : k ≠ "style") :
    getA (stripFillsAttrs tag a) k = getA a k := by
  simp only [stripFillsAttrs]
  split
  · rfl
  · rw [finalFillStep_other _ _ _ h1, styleStep_other _ _ _ h2,
      fillAttrStep_other _ _ h1]

theorem stripFills_keeps (tag : String) (a : List (String × String))
    (k : String) (h : (getA a k).isSome = true) :
    (getA (stripFillsAttrs tag a) k).isSome = true := by
  simp only [stripFillsAttrs]
  split
  · exact h
  · exact finalFillStep_keeps _ _ _ (styleStep_keeps _ _ _ (fillAttrStep_keeps _ _ h))

theorem stripFills_exempt (tag : String) (a : List (String × String))
    (h : ((getAD a "id" "").startsWith "Autoshape" ||
      (getAD a "id" "").startsWith "Word") = true) :
    stripFillsAttrs tag a = a := by
  simp only [stripFillsAttrs]
  rw [if_pos h]

theorem removeFillsList_length : ∀ cs : List Element,
    (removeFillsList cs).length = cs.length
  | [] => rfl
  | _ :: cs => by simp only [removeFillsList, List.length_cons,
      removeFillsList_length cs]

/-- C9.  Frame property of fill stripping: `remove_fills` preserves the
tree structure exactly (its pre-order traversal is the node-wise image
of the original), and on each element it changes at most the `fill` and
`style` attribute values: tag, text, tail and child count are
untouched, every other attribute keeps its value, no attribute is ever
removed, and an element whose id starts with `Autoshape` or `Word` has
its whole attribute list left unchanged. -/
theorem C9_fill_strip_frame (root : Element) :
    preorder (remove_fills root) = (preorder root).map remove_fills ∧
    (∀ e : Element,
      (remove_fills e).tag = e.tag ∧
      (remove_fills e).text = e.text ∧
      (remove_fills e).tail = e.tail ∧
      (remove_fills e).children.length = e.children.length ∧
      (∀ k, k ≠ "fill" → k ≠ "style" →
        (remove_fills e).getAttr k = e.getAttr k) ∧
      (∀ k, (e.getAttr k).isSome = true →
        ((remove_fills e).getAttr k).isSome = true) ∧
      (((getAD e.attrib "id" "").startsWith "Autoshape" ||
        (getAD e.attrib "id" "").startsWith "Word") = true →
        (remove_fills e).attrib = e.attrib)) := by
  constructor
  · refine Element.strongInduction
      (fun e => preorder (remove_fills e) = (preorder e).map remove_fills)
      ?_ root
    intro t a x l cs ih
    have aux : ∀ ds : List Element,
        (∀ c ∈ ds, preorder (remove_fills c) = (preorder c).map remove_fills) →
        preorderList (removeFillsList ds) = (preorderList ds).map remove_fills := by
      intro ds
      induction ds with
      | nil => intro _; rfl
      | cons c cs' ihl =>
        intro hmem
        simp only [removeFillsList, preorderList, List.map_append]
        rw [hmem c (List.mem_cons_self _ _),
          ihl (fun c' h => hmem c' (List.mem_cons_of_mem _ h))]
    simp only [remove_fills, preorder, List.map_cons]
    rw [aux cs ih]
  · intro e
    cases e with
    | mk t a x l cs =>
      refine ⟨?_, ?_, ?_, ?_, ?_, ?_, ?_⟩
      · simp only [remove_fills, Element.tag]
      · simp only [remove_fills, Element.text]
      · simp only [remove_fills, Element.tail]
      · simp only [remove_fills, Element.children]
        exact removeFillsList_length cs
      · intro k h1 h2
        simp only [remove_fills, Element.getAttr, Element.attrib]
        exact stripFills_other t a k h1 h2
      · intro k h
        simp only [remove_fills, Element.getAttr, Element.attrib] at h ⊢
        exact stripFills_keeps t a k h
      · intro h
        simp only [remove_fills, Element.attrib] at h ⊢
        exact stripFills_exempt t a h

/-- C9 witness: a stroke attribute survives unchanged, and a
Word-exempt element keeps its whole attribute list. -/
theorem C9_fill_strip_witness :
    (remove_fills strokeRectFix).getAttr "stroke" =
      strokeRectFix.getAttr "stroke" ∧
    (remove_fills exemptRectFix).attrib = exemptRectFix.attrib :=
  ⟨((C9_fill_strip_frame strokeRectFix).2 strokeRectFix).2.2.2.2.1 "stroke"
     (by decide) (by decide),
   ((C9_fill_strip_frame exemptRectFix).2 exemptRectFix).2.2.2.2.2.2
     (by with_unfolding_all decide)⟩

end Iwb
